import Mathlib

/-!
Shallow embedding of the ADS-B flight-segmentation engine of
`src/ads_b_data_pre_processing/add_flight_id_in_polars.py`.

Dataframes are embedded as lists of structured records; every polars
operation used by the engine is translated to an executable list function:

* `DataFrame.sort(["icao_address", "timestamp"])` becomes a deterministic
  (insertion) sort on the key `(icao_address, timestamp)`.  The source's tie
  order for equal keys is unspecified; the embedding fixes one.
* elementwise expressions under `.over(...)` are elementwise (polars window
  of an elementwise expression returns the elementwise value);
* `fill_null(strategy="forward"/"backward").over(g)` becomes a linear scan
  carrying the last non-null value per group key;
* `diff().over(g)` subtracts, for each row, the timestamp of the nearest
  preceding row with the same group value (null on a group's first row);
* `cum_sum` follows polars null semantics: a null input produces a null
  output and does not advance the accumulator;
* arithmetic and comparisons involving null produce null;
* `rle_id` assigns run-length ids starting at 0, incrementing whenever the
  key differs from the preceding row's key;
* `group_by(...).agg(...)` produces one row per distinct key, in first
  occurrence order, aggregating over all rows with that key;
* joins emit, for each left row, one row per matching right row (left order);
  a left join emits a single null-extended row when nothing matches;
* raising `ValueError` / `TypeError` becomes `Except.error`.

Timestamps are integers in minutes; `pl.duration(hours=h)` is `60 * h`.
The configuration's `hard_gap_hours` is kept as an integer (default 6,
matching the shipped `6.0`); the other config fields
(`soft_gap_minutes`, `long_ground_gap_minutes`, `max_jump_km`,
`same_heading_deg`) are never read by the algorithm and are omitted.
-/

namespace AdsB

/-- Configuration for flight segmentation; only `hard_gap_hours` is ever
consulted by the algorithm (default 6, the shipped value). -/
structure FlightSegmentationConfig where
  hard_gap_hours : Int := 6
deriving DecidableEq, Repr

/-- The hard-gap threshold `config.hard_gap_hours * pl.duration(hours=1)`,
in minutes. -/
def FlightSegmentationConfig.hardGapMinutes (c : FlightSegmentationConfig) : Int :=
  c.hard_gap_hours * 60

/-- An input position record (the columns the segmentation engine reads;
other columns are carried through unchanged and are not modelled). -/
structure InRec where
  icao_address : String
  timestamp : Int
  departure_airport_icao : Option String
  arrival_airport_icao : Option String
deriving DecidableEq, Repr

/-- A record after `add_unique_flight_identifier`. -/
structure UfiRec where
  icao_address : String
  timestamp : Int
  departure_airport_icao : Option String
  arrival_airport_icao : Option String
  unique_flight_identifier : Option String
deriving DecidableEq, Repr

/-- A record after the left join with the continued-flight info (it carries
an optional prior `flight_id`). -/
structure JoinRec where
  icao_address : String
  timestamp : Int
  departure_airport_icao : Option String
  arrival_airport_icao : Option String
  unique_flight_identifier : Option String
  flight_id : Option Int
deriving DecidableEq, Repr

/-- A record of the new-flight stream carrying a `first_flight_id` column. -/
structure FidRec where
  icao_address : String
  timestamp : Int
  departure_airport_icao : Option String
  arrival_airport_icao : Option String
  unique_flight_identifier : Option String
  first_flight_id : Int
deriving DecidableEq, Repr

/-- An output record: the input columns plus the final `flight_id` column
(nullable Int32 in the source). -/
structure OutRec where
  icao_address : String
  timestamp : Int
  departure_airport_icao : Option String
  arrival_airport_icao : Option String
  flight_id : Option Int
deriving DecidableEq, Repr

/-- A row of the Flight Tail State built by
`create_flight_info_dataframe_for_latest_flights`. -/
structure TailRec where
  flight_id : Option Int
  icao_address : String
  departure_airport_icao : Option String
  arrival_airport_icao : Option String
  last_timestamp : Int
  unique_flight_identifier : Option String
deriving DecidableEq, Repr

instance instDecEqExcept {ε α : Type} [DecidableEq ε] [DecidableEq α] :
    DecidableEq (Except ε α) := fun a b =>
  match a, b with
  | .error e, .error f =>
    match decEq e f with
    | isTrue h => isTrue (by rw [h])
    | isFalse h => isFalse (fun he => by cases he; exact h rfl)
  | .error _, .ok _ => isFalse (fun h => by cases h)
  | .ok _, .error _ => isFalse (fun h => by cases h)
  | .ok x, .ok y =>
    match decEq x y with
    | isTrue h => isTrue (by rw [h])
    | isFalse h => isFalse (fun he => by cases he; exact h rfl)

/-! ### Generic list machinery (sorting, grouping, scans) -/

/-- Strict lexicographic order on lists of naturals (used to compare
aircraft identifier strings by character codes). -/
def natsLt : List Nat → List Nat → Bool
  | [], [] => false
  | [], _ :: _ => true
  | _ :: _, [] => false
  | a :: as, b :: bs => a < b || (a == b && natsLt as bs)

/-- Non-strict order on a `(characters, timestamp)` sort key. -/
def posLe (p q : List Nat × Int) : Bool :=
  natsLt p.1 q.1 || (p.1 == q.1 && p.2 ≤ q.2)

/-- Record types that carry the `(icao_address, timestamp)` sort key. -/
class HasPos (α : Type) where
  icaoOf : α → String
  tsOf : α → Int

/-- The `(icao_address, timestamp)` sort key of a record, with the string
taken as its character codes. -/
def posOf {α : Type} [HasPos α] (r : α) : List Nat × Int :=
  ((HasPos.icaoOf r).data.map Char.toNat, HasPos.tsOf r)

/-- Row comparison realising `sort(["icao_address", "timestamp"])`. -/
def rowLe {α : Type} [HasPos α] (a b : α) : Bool :=
  posLe (posOf a) (posOf b)

instance : HasPos InRec := ⟨InRec.icao_address, InRec.timestamp⟩
instance : HasPos UfiRec := ⟨UfiRec.icao_address, UfiRec.timestamp⟩
instance : HasPos JoinRec := ⟨JoinRec.icao_address, JoinRec.timestamp⟩
instance : HasPos FidRec := ⟨FidRec.icao_address, FidRec.timestamp⟩
instance : HasPos OutRec := ⟨OutRec.icao_address, OutRec.timestamp⟩

/-- Insert into a sorted list (kept stable: a new element goes before the
first element it compares `≤` to). -/
def insertPos {α : Type} [HasPos α] (a : α) : List α → List α
  | [] => [a]
  | b :: l => if rowLe a b then a :: b :: l else b :: insertPos a l

/-- Embedding of `DataFrame.sort(["icao_address", "timestamp"])`
(insertion sort; deterministic refinement of the source's unspecified tie
order). -/
def sortByPos {α : Type} [HasPos α] (l : List α) : List α :=
  l.foldr insertPos []

/-- Association-list lookup (group state for window scans). -/
def lookupA {κ ν : Type} [DecidableEq κ] (st : List (κ × ν)) (k : κ) : Option ν :=
  match st with
  | [] => none
  | (k', v) :: st' => if k = k' then some v else lookupA st' k

/-- Association-list update. -/
def updateA {κ ν : Type} [DecidableEq κ] (st : List (κ × ν)) (k : κ) (v : ν) :
    List (κ × ν) :=
  match st with
  | [] => [(k, v)]
  | (k', v') :: st' => if k = k' then (k, v) :: st' else (k', v') :: updateA st' k v

/-- Append a key if it is not present yet (first-occurrence key order of
`group_by`). -/
def insertNew {κ : Type} [DecidableEq κ] (ks : List κ) (k : κ) : List κ :=
  if k ∈ ks then ks else ks ++ [k]

/-- Distinct keys of a list, in first-occurrence order. -/
def keysInOrder {α κ : Type} [DecidableEq κ] (key : α → κ) (l : List α) : List κ :=
  l.foldl (fun ks a => insertNew ks (key a)) []

/-- Embedding of `group_by(key)`: one `(key, rows-with-that-key)` pair per
distinct key, in first-occurrence order. -/
def groupBy {α κ : Type} [DecidableEq κ] (key : α → κ) (l : List α) :
    List (κ × List α) :=
  (keysInOrder key l).map (fun k => (k, l.filter (fun a => key a = k)))

/-- Maximum of a list of integers (`none` on the empty list; polars `max`
ignores null, hence the caller passes the non-null values). -/
def maxOpt : List Int → Option Int
  | [] => none
  | a :: l =>
    match maxOpt l with
    | none => some a
    | some m => some (max a m)

/-- Minimum of a list of integers (`none` on the empty list). -/
def minOpt : List Int → Option Int
  | [] => none
  | a :: l =>
    match minOpt l with
    | none => some a
    | some m => some (min a m)

/-- Tail of `rle_id`: tag each element with its run id, given the previous
key and the current id. -/
def rleTagAux {α κ : Type} [DecidableEq κ] (key : α → κ) :
    κ → Nat → List α → List (α × Nat)
  | _, _, [] => []
  | p, n, a :: l =>
    if key a = p then (a, n) :: rleTagAux key p n l
    else (a, n + 1) :: rleTagAux key (key a) (n + 1) l

/-- Embedding of `rle_id()` over `key`: pair each row with a run-length id
starting at 0 and incrementing whenever the key changes between adjacent
rows. -/
def rleTag {α κ : Type} [DecidableEq κ] (key : α → κ) : List α → List (α × Nat)
  | [] => []
  | a :: l => (a, 0) :: rleTagAux key (key a) 0 l

/-- Embedding of polars `cum_sum` over a nullable boolean column: null
stays null and does not advance the accumulator. -/
def cumSumOpt (acc : Int) : List (Option Bool) → List (Option Int)
  | [] => []
  | none :: l => none :: cumSumOpt acc l
  | some b :: l =>
    let acc' := acc + (if b then 1 else 0)
    some acc' :: cumSumOpt acc' l

/-! ### Embeddings of the source functions -/

/-- Forward fill of a nullable string field within `icao_address` groups
(`fill_null(strategy="forward").over("icao_address")`): a linear scan
carrying, per aircraft, the last non-null value seen. -/
def ffillField (get : InRec → Option String) (set : InRec → Option String → InRec) :
    List (String × String) → List InRec → List InRec
  | _, [] => []
  | st, r :: l =>
    match get r with
    | some v => r :: ffillField get set (updateA st r.icao_address v) l
    | none => set r (lookupA st r.icao_address) :: ffillField get set st l

/-- Backward fill within `icao_address` groups: forward fill of the
reversed row sequence. -/
def bfillField (get : InRec → Option String) (set : InRec → Option String → InRec)
    (l : List InRec) : List InRec :=
  (ffillField get set [] l.reverse).reverse

def setDep (r : InRec) (v : Option String) : InRec := { r with departure_airport_icao := v }

def setArr (r : InRec) (v : Option String) : InRec := { r with arrival_airport_icao := v }

/-- Embedding of `filter_and_fill_origin_destination_pair`.

The source filters on
`departure_airport_icao.is_not_null().over("icao_address") &
 arrival_airport_icao.is_not_null().over("icao_address")`;
`is_not_null` is elementwise, and a window over an elementwise expression
is that elementwise value, so the filter keeps exactly the rows whose
departure AND arrival are both non-null.  It then forward/backward fills
both airport columns per aircraft (on the filtered rows). -/
def filter_and_fill_origin_destination_pair (l : List InRec) : List InRec :=
  let filtered := l.filter (fun r =>
    r.departure_airport_icao.isSome && r.arrival_airport_icao.isSome)
  let dep := bfillField InRec.departure_airport_icao setDep
    (ffillField InRec.departure_airport_icao setDep [] filtered)
  bfillField InRec.arrival_airport_icao setArr
    (ffillField InRec.arrival_airport_icao setArr [] dep)

/-- The string `icao ++ "_" ++ departure ++ "_" ++ arrival`; a null airport
makes the whole concatenation null (polars string concat with null). -/
def mkUfi (icao : String) (dep arr : Option String) : Option String :=
  match dep, arr with
  | some d, some a => some (icao ++ "_" ++ d ++ "_" ++ a)
  | _, _ => none

/-- Embedding of `add_unique_flight_identifier` (one record). -/
def addUfi1 (r : InRec) : UfiRec :=
  ⟨r.icao_address, r.timestamp, r.departure_airport_icao, r.arrival_airport_icao,
    mkUfi r.icao_address r.departure_airport_icao r.arrival_airport_icao⟩

/-- Embedding of `add_unique_flight_identifier`. -/
def add_unique_flight_identifier (l : List InRec) : List UfiRec :=
  l.map addUfi1

/-- Required columns checked by
`create_flight_info_dataframe_for_latest_flights`. -/
def requiredColumns : List String :=
  ["icao_address", "departure_airport_icao", "arrival_airport_icao",
   "flight_id", "timestamp"]

/-- An output dataframe together with its column names (the source checks
column presence dynamically). -/
structure OutDF where
  cols : List String
  rows : List OutRec
deriving DecidableEq, Repr

/-- The columns an output dataframe of the pipeline actually has. -/
def stdCols : List String := requiredColumns

/-- The tail-state aggregation: group the output rows by
`(flight_id, icao_address, departure_airport_icao, arrival_airport_icao)`,
take the max timestamp per group, keep groups within 6 hours of the
chunk-wide max timestamp, and add the unique flight identifier. -/
def tailStateOf (rows : List OutRec) : List TailRec :=
  match maxOpt (rows.map OutRec.timestamp) with
  | none => []
  | some m =>
    let groups := groupBy (fun r : OutRec =>
      (r.flight_id, r.icao_address, r.departure_airport_icao, r.arrival_airport_icao)) rows
    let aggregated := groups.filterMap (fun kg =>
      (maxOpt (kg.2.map OutRec.timestamp)).map (fun last =>
        TailRec.mk kg.1.1 kg.1.2.1 kg.1.2.2.1 kg.1.2.2.2 last
          (mkUfi kg.1.2.1 kg.1.2.2.1 kg.1.2.2.2)))
    aggregated.filter (fun t => m - 60 * 6 ≤ t.last_timestamp)

/-- Embedding of `create_flight_info_dataframe_for_latest_flights`:
empty input returns an empty frame before the column check; a non-empty
input missing a required column raises `ValueError`; otherwise the tail
state is computed. -/
def create_flight_info_dataframe_for_latest_flights (df : OutDF) :
    Except String (List TailRec) :=
  if df.rows.isEmpty then .ok []
  else if (requiredColumns.filter (fun c => !(df.cols.contains c))).isEmpty then
    .ok (tailStateOf df.rows)
  else .error "Missing required columns in output_dataframe"

/-- Embedding of `remove_erroneous_single_point_flights`: sort by
`(icao_address, timestamp)`; keep the `first_flight_id` values occurring
more than 3 times; filter to those rows; re-assign `first_flight_id` as
`rle_id` over `unique_flight_identifier`. -/
def remove_erroneous_single_point_flights (l : List FidRec) : List FidRec :=
  let s := sortByPos l
  let highs := ((groupBy FidRec.first_flight_id s).filter
    (fun kg => 3 < kg.2.length)).map Prod.fst
  let kept := s.filter (fun r => highs.contains r.first_flight_id)
  (rleTag FidRec.unique_flight_identifier kept).map
    (fun rn => { rn.1 with first_flight_id := Int.ofNat rn.2 })

/-- Per-`(icao_address, unique_flight_identifier)` earliest timestamps of
the current chunk, restricted to pairs whose earliest timestamp is within
6 hours of the smallest such earliest timestamp. -/
def nextFlightPerAircraft (u : List UfiRec) :
    List ((String × Option String) × Int) :=
  let grouped := (groupBy (fun r : UfiRec =>
    (r.icao_address, r.unique_flight_identifier)) u).filterMap (fun kg =>
      (minOpt (kg.2.map UfiRec.timestamp)).map (fun first => (kg.1, first)))
  match minOpt (grouped.map Prod.snd) with
  | none => []
  | some m => grouped.filter (fun g => g.2 ≤ m + 60 * 6)

/-- The continued-flight info: inner join of the per-aircraft earliest
timestamps with the previous tail state on
`(icao_address, unique_flight_identifier)`, keeping
`(icao, ufi, first_timestamp as timestamp, prior flight_id)`. -/
def continuedInfo (p : List TailRec) (u : List UfiRec) :
    List (String × Option String × Int × Option Int) :=
  (nextFlightPerAircraft u).flatMap (fun g =>
    (p.filter (fun t =>
      t.icao_address = g.1.1 && t.unique_flight_identifier == g.1.2)).map
      (fun t => (g.1.1, g.1.2, g.2, t.flight_id)))

/-- Left join of the chunk rows with the continued-flight info on
`(icao_address, unique_flight_identifier, timestamp)`; unmatched rows get a
null `flight_id`, matched rows one output row per match. -/
def joinedRows (p : List TailRec) (u : List UfiRec) : List JoinRec :=
  u.flatMap (fun r =>
    let ms := (continuedInfo p u).filter (fun ci =>
      ci.1 = r.icao_address && ci.2.1 == r.unique_flight_identifier &&
      ci.2.2.1 == r.timestamp)
    match ms with
    | [] => [⟨r.icao_address, r.timestamp, r.departure_airport_icao,
        r.arrival_airport_icao, r.unique_flight_identifier, none⟩]
    | _ => ms.map (fun ci => ⟨r.icao_address, r.timestamp,
        r.departure_airport_icao, r.arrival_airport_icao,
        r.unique_flight_identifier, ci.2.2.2⟩))

/-- `flight_id.fill_null(strategy="forward").over("icao_address")`:
a scan carrying, per aircraft, the last non-null flight id. -/
def ffillFlightId (st : List (String × Int)) : List JoinRec → List JoinRec
  | [] => []
  | r :: l =>
    match r.flight_id with
    | some v => r :: ffillFlightId (updateA st r.icao_address v) l
    | none => { r with flight_id := lookupA st r.icao_address } :: ffillFlightId st l

/-- The joined rows after the forward fill of `flight_id`. -/
def filledRows (p : List TailRec) (u : List UfiRec) : List JoinRec :=
  ffillFlightId [] (joinedRows p u)

/-- Embedding of `segment_dataframe_into_new_and_continued_flights`:
rows with a (filled) flight id form the continued stream, the rest the new
stream (dropping the flight id column). -/
def segment_dataframe_into_new_and_continued_flights
    (p : List TailRec) (u : List UfiRec) : List JoinRec × List UfiRec :=
  let filled := filledRows p u
  (filled.filter (fun r => r.flight_id.isSome),
   (filled.filter (fun r => r.flight_id.isNone)).map (fun r =>
     ⟨r.icao_address, r.timestamp, r.departure_airport_icao,
      r.arrival_airport_icao, r.unique_flight_identifier⟩))

/-- `timestamp.diff().gt(threshold).over("first_flight_id")`: per row, the
gap to the nearest preceding row with the same `first_flight_id` compared
with the threshold; null on a group's first row. -/
def gapFlags (thr : Int) (st : List (Int × Int)) : List FidRec → List (Option Bool)
  | [] => []
  | r :: l =>
    (match lookupA st r.first_flight_id with
     | none => none
     | some t => some (decide (thr < r.timestamp - t))) ::
      gapFlags thr (updateA st r.first_flight_id r.timestamp) l

/-- Core of `seperate_flight_id_for_large_time_gaps`, keeping the working
columns: sort, compute the over-group gap flags, cumulative-sum them over
the whole frame (polars null semantics), and add the increment to
`first_flight_id` to form `flight_id` (null increment gives null id). -/
def seperate_core (thr : Int) (l : List FidRec) : List (FidRec × Option Int) :=
  let s := sortByPos l
  let incs := cumSumOpt 0 (gapFlags thr [] s)
  s.zip (incs.zip s |>.map (fun iv =>
    iv.1.map (fun i => iv.2.first_flight_id + i)))

/-- Embedding of `seperate_flight_id_for_large_time_gaps` (the final column
drop projects away the working columns). -/
def seperate_flight_id_for_large_time_gaps (thr : Int) (l : List FidRec) :
    List OutRec :=
  (seperate_core thr l).map (fun rf =>
    ⟨rf.1.icao_address, rf.1.timestamp, rf.1.departure_airport_icao,
     rf.1.arrival_airport_icao, rf.2⟩)

/-- The Candidate Grouper of `assign_flight_id_to_unique_flights`: sort the
new-flight stream and assign `first_flight_id` by `rle_id` over
`(icao_address, unique_flight_identifier)`. -/
def candidateGroup (n : List UfiRec) : List FidRec :=
  (rleTag (fun r : UfiRec => (r.icao_address, r.unique_flight_identifier))
    (sortByPos n)).map (fun rn =>
      ⟨rn.1.icao_address, rn.1.timestamp, rn.1.departure_airport_icao,
       rn.1.arrival_airport_icao, rn.1.unique_flight_identifier, Int.ofNat rn.2⟩)

/-- Drop the `unique_flight_identifier` column of a continued-stream row. -/
def dropUfiJ (r : JoinRec) : OutRec :=
  ⟨r.icao_address, r.timestamp, r.departure_airport_icao,
   r.arrival_airport_icao, r.flight_id⟩

/-- The new-flight arm of `assign_flight_id_to_unique_flights`: Candidate
Grouper (`rle_id` over `(icao_address, unique_flight_identifier)` on the
sorted stream), noise filter, re-base by `next_flight_id`, gap splitter. -/
def newFlightsPipeline (config : FlightSegmentationConfig) (next : Int)
    (n : List UfiRec) : List OutRec :=
  seperate_flight_id_for_large_time_gaps config.hardGapMinutes
    ((remove_erroneous_single_point_flights (candidateGroup n)).map
      (fun r => { r with first_flight_id := r.first_flight_id + next }))

/-- Embedding of `assign_flight_id_to_unique_flights`.  `prev = none`
embeds passing `None`; `prev = some p` a previous flight-info dataframe
with rows `p`.  With no usable previous info the continued stream is the
empty frame and ids start at 0; the `TypeError` of `None + 1` (non-empty
previous info whose flight ids are all null) is an `Except.error`. -/
def assign_flight_id_to_unique_flights (config : FlightSegmentationConfig)
    (prev : Option (List TailRec)) (df : List InRec) :
    Except String (List OutRec) :=
  if df.isEmpty then .ok []
  else
    let u := add_unique_flight_identifier
      (filter_and_fill_origin_destination_pair (sortByPos df))
    match prev with
    | none =>
      .ok (sortByPos (([] : List JoinRec).map dropUfiJ ++
        newFlightsPipeline config 0 u))
    | some p =>
      if p.isEmpty then
        .ok (sortByPos (([] : List JoinRec).map dropUfiJ ++
          newFlightsPipeline config 0 u))
      else
        match maxOpt (p.filterMap TailRec.flight_id) with
        | none => .error "unsupported operand types: NoneType + int"
        | some m =>
          let cn := segment_dataframe_into_new_and_continued_flights p u
          .ok (sortByPos (cn.1.map dropUfiJ ++
            newFlightsPipeline config (m + 1) cn.2))

/-- Forget the flight-id and working columns of a gap-splitter row,
recovering the plain input record (this is what the pipeline's column
drops leave for a later re-run). -/
def toInRecP (rf : FidRec × Option Int) : InRec :=
  ⟨rf.1.icao_address, rf.1.timestamp, rf.1.departure_airport_icao,
   rf.1.arrival_airport_icao⟩

/-- Forget the flight-id column of an output record. -/
def toInRecO (r : OutRec) : InRec :=
  ⟨r.icao_address, r.timestamp, r.departure_airport_icao,
   r.arrival_airport_icao⟩

/-- The Candidate Grouper (`rle_id` over
`(icao_address, unique_flight_identifier)`, lines 390-394) followed by
`seperate_flight_id_for_large_time_gaps`, as one re-runnable process on
plain records: the unique flight identifier is re-derived exactly as the
pipeline derives it, and the working columns are kept alongside. -/
def grouperGapSplit (thr : Int) (v : List InRec) : List (FidRec × Option Int) :=
  seperate_core thr (candidateGroup (add_unique_flight_identifier v))

/-- The tail state of a `create_flight_info_dataframe_for_latest_flights`
result, or `[]` when it raised. -/
def tailOrNil (e : Except String (List TailRec)) : List TailRec :=
  match e with
  | .ok l => l
  | .error _ => []

/-- Adjacent differences all at most `thr`. -/
def adjOk (thr : Int) : List Int → Bool
  | a :: b :: t => decide (b - a ≤ thr) && adjOk thr (b :: t)
  | _ => true

/-- A flight-id list is dense and zero-based: all ids occur in `0..max`. -/
def denseB (ids : List Int) : Bool :=
  ids.all (fun i => decide (0 ≤ i)) &&
    (match maxOpt ids with
     | none => true
     | some m => (List.range (m + 1).toNat).all
        (fun k => ids.contains (Int.ofNat k)))

/-- A labeled record set is gap-split: within each flight id, time-adjacent
records are at most `thr` apart. -/
def gapSplitOkB (thr : Int) (rows : List OutRec) : Bool :=
  (groupBy OutRec.flight_id rows).all (fun kg =>
    adjOk thr ((sortByPos kg.2).map OutRec.timestamp))

/-- Two id lists induce the same partition of positions. -/
def samePartitionB {α β : Type} [BEq α] [BEq β] (xs : List α) (ys : List β) : Bool :=
  xs.length == ys.length &&
    (List.range xs.length).all (fun i => (List.range xs.length).all (fun j =>
      (xs[i]? == xs[j]?) == (ys[i]? == ys[j]?)))

/-- Zero-based dense consecutive id sequence: starts at 0 and each step is
`+0` or `+1`. -/
def denseConsecB : List Int → Bool
  | [] => true
  | i :: t => (i == 0) && stepsOk (i :: t)
where
  stepsOk : List Int → Bool
  | a :: b :: t => (b == a || b == a + 1) && stepsOk (b :: t)
  | _ => true

/-- The last non-null `flight_id` among the rows of `xs` with aircraft `k`,
falling back to the scan state `st` (last-writer-wins fold). -/
def lastFidFrom (st : List (String × Int)) (xs : List JoinRec) (k : String) :
    Option Int :=
  xs.foldl (fun acc r =>
    if r.icao_address = k then
      match r.flight_id with
      | some v => some v
      | none => acc
    else acc) (lookupA st k)

/-- Whether an `Except` result is an error (a raised exception). -/
def isErrorE {ε α : Type} : Except ε α → Bool
  | .error _ => true
  | .ok _ => false

/-- Forget the `first_flight_id` working column. -/
def dropFirstId (r : FidRec) : UfiRec :=
  ⟨r.icao_address, r.timestamp, r.departure_airport_icao,
   r.arrival_airport_icao, r.unique_flight_identifier⟩

/-! ### Concrete scenarios -/

/-- `FlightSegmentationConfig()` with all defaults. -/
def defaultConfig : FlightSegmentationConfig := {}

/-- One aircraft, OD key (X, EGLL, EGPH), 5 records one minute apart. -/
def c6in : List InRec :=
  [⟨"X", 0, some "EGLL", some "EGPH"⟩, ⟨"X", 1, some "EGLL", some "EGPH"⟩,
   ⟨"X", 2, some "EGLL", some "EGPH"⟩, ⟨"X", 3, some "EGLL", some "EGPH"⟩,
   ⟨"X", 4, some "EGLL", some "EGPH"⟩]

/-- Three candidate flights of one aircraft: two K-runs of 4 records around
an L-run of only 2 records. -/
def c7in : List FidRec :=
  [⟨"X", 0, some "EGLL", some "EGPH", some "X_EGLL_EGPH", 0⟩,
   ⟨"X", 1, some "EGLL", some "EGPH", some "X_EGLL_EGPH", 0⟩,
   ⟨"X", 2, some "EGLL", some "EGPH", some "X_EGLL_EGPH", 0⟩,
   ⟨"X", 3, some "EGLL", some "EGPH", some "X_EGLL_EGPH", 0⟩,
   ⟨"X", 10, some "EGPH", some "EGLL", some "X_EGPH_EGLL", 1⟩,
   ⟨"X", 11, some "EGPH", some "EGLL", some "X_EGPH_EGLL", 1⟩,
   ⟨"X", 20, some "EGLL", some "EGPH", some "X_EGLL_EGPH", 2⟩,
   ⟨"X", 21, some "EGLL", some "EGPH", some "X_EGLL_EGPH", 2⟩,
   ⟨"X", 22, some "EGLL", some "EGPH", some "X_EGLL_EGPH", 2⟩,
   ⟨"X", 23, some "EGLL", some "EGPH", some "X_EGLL_EGPH", 2⟩]

/-- A chunk in which one aircraft flies OD key K, then the reverse L, then
K again, each run 4 records, all within the lookback horizon. -/
def c2in : List InRec :=
  [⟨"X", 0, some "EGLL", some "EGPH"⟩, ⟨"X", 1, some "EGLL", some "EGPH"⟩,
   ⟨"X", 2, some "EGLL", some "EGPH"⟩, ⟨"X", 3, some "EGLL", some "EGPH"⟩,
   ⟨"X", 10, some "EGPH", some "EGLL"⟩, ⟨"X", 11, some "EGPH", some "EGLL"⟩,
   ⟨"X", 12, some "EGPH", some "EGLL"⟩, ⟨"X", 13, some "EGPH", some "EGLL"⟩,
   ⟨"X", 20, some "EGLL", some "EGPH"⟩, ⟨"X", 21, some "EGLL", some "EGPH"⟩,
   ⟨"X", 22, some "EGLL", some "EGPH"⟩, ⟨"X", 23, some "EGLL", some "EGPH"⟩]

/-- The labeled output of the engine on `c2in` (first record of each new
flight carries a null id from the null propagated through the gap
splitter's diff/cum_sum). -/
def c2out : List OutRec :=
  [⟨"X", 0, some "EGLL", some "EGPH", none⟩,
   ⟨"X", 1, some "EGLL", some "EGPH", some 0⟩,
   ⟨"X", 2, some "EGLL", some "EGPH", some 0⟩,
   ⟨"X", 3, some "EGLL", some "EGPH", some 0⟩,
   ⟨"X", 10, some "EGPH", some "EGLL", none⟩,
   ⟨"X", 11, some "EGPH", some "EGLL", some 1⟩,
   ⟨"X", 12, some "EGPH", some "EGLL", some 1⟩,
   ⟨"X", 13, some "EGPH", some "EGLL", some 1⟩,
   ⟨"X", 20, some "EGLL", some "EGPH", none⟩,
   ⟨"X", 21, some "EGLL", some "EGPH", some 2⟩,
   ⟨"X", 22, some "EGLL", some "EGPH", some 2⟩,
   ⟨"X", 23, some "EGLL", some "EGPH", some 2⟩]

/-- The tail state computed from `c2out`. -/
def c2tail : List TailRec :=
  [⟨none, "X", some "EGLL", some "EGPH", 20, some "X_EGLL_EGPH"⟩,
   ⟨some 0, "X", some "EGLL", some "EGPH", 3, some "X_EGLL_EGPH"⟩,
   ⟨none, "X", some "EGPH", some "EGLL", 10, some "X_EGPH_EGLL"⟩,
   ⟨some 1, "X", some "EGPH", some "EGLL", 13, some "X_EGPH_EGLL"⟩,
   ⟨some 2, "X", some "EGLL", some "EGPH", 23, some "X_EGLL_EGPH"⟩]

/-- Chunk 1 for the id-reuse scenario: aircraft AAA flies late in the
chunk, aircraft BBB early (BBB's flight gets the larger id but leaves the
lookback horizon). -/
def c1chunk1 : List InRec :=
  [⟨"AAA", 660, some "EGLL", some "EGPH"⟩, ⟨"AAA", 661, some "EGLL", some "EGPH"⟩,
   ⟨"AAA", 662, some "EGLL", some "EGPH"⟩, ⟨"AAA", 663, some "EGLL", some "EGPH"⟩,
   ⟨"BBB", 0, some "EGLL", some "EGPH"⟩, ⟨"BBB", 1, some "EGLL", some "EGPH"⟩,
   ⟨"BBB", 2, some "EGLL", some "EGPH"⟩, ⟨"BBB", 3, some "EGLL", some "EGPH"⟩]

/-- Chunk 2 for the id-reuse scenario: a fresh aircraft CCC. -/
def c1chunk2 : List InRec :=
  [⟨"CCC", 700, some "EGLL", some "EGPH"⟩, ⟨"CCC", 701, some "EGLL", some "EGPH"⟩,
   ⟨"CCC", 702, some "EGLL", some "EGPH"⟩, ⟨"CCC", 703, some "EGLL", some "EGPH"⟩]

/-- Output of chunk 1: BBB's flight has flight_id 1. -/
def c1out1 : List OutRec :=
  [⟨"AAA", 660, some "EGLL", some "EGPH", none⟩,
   ⟨"AAA", 661, some "EGLL", some "EGPH", some 0⟩,
   ⟨"AAA", 662, some "EGLL", some "EGPH", some 0⟩,
   ⟨"AAA", 663, some "EGLL", some "EGPH", some 0⟩,
   ⟨"BBB", 0, some "EGLL", some "EGPH", none⟩,
   ⟨"BBB", 1, some "EGLL", some "EGPH", some 1⟩,
   ⟨"BBB", 2, some "EGLL", some "EGPH", some 1⟩,
   ⟨"BBB", 3, some "EGLL", some "EGPH", some 1⟩]

/-- Tail state after chunk 1: only AAA's entries survive the horizon
filter, so the largest tail id is 0 although id 1 was already used. -/
def c1tail1 : List TailRec :=
  [⟨none, "AAA", some "EGLL", some "EGPH", 660, some "AAA_EGLL_EGPH"⟩,
   ⟨some 0, "AAA", some "EGLL", some "EGPH", 663, some "AAA_EGLL_EGPH"⟩]

/-- Output of chunk 2: CCC's brand-new flight is also assigned id 1. -/
def c1out2 : List OutRec :=
  [⟨"CCC", 700, some "EGLL", some "EGPH", none⟩,
   ⟨"CCC", 701, some "EGLL", some "EGPH", some 1⟩,
   ⟨"CCC", 702, some "EGLL", some "EGPH", some 1⟩,
   ⟨"CCC", 703, some "EGLL", some "EGPH", some 1⟩]

/-- A prior tail (flight 0 last seen at minute 372) for the continued-gap
scenario. -/
def c3tail : List TailRec :=
  [⟨some 0, "X", some "EGLL", some "EGPH", 372, some "X_EGLL_EGPH"⟩]

/-- Chunk whose continuation of flight 0 contains an internal 539-minute
gap (381 to 920), far beyond the 360-minute hard-gap threshold. -/
def c3in : List InRec :=
  [⟨"X", 380, some "EGLL", some "EGPH"⟩, ⟨"X", 381, some "EGLL", some "EGPH"⟩,
   ⟨"X", 920, some "EGLL", some "EGPH"⟩, ⟨"X", 921, some "EGLL", some "EGPH"⟩]

/-- The engine's output on `c3in` with prior tail `c3tail`: the continued
flight keeps id 0 across the 539-minute gap. -/
def c3out : List OutRec :=
  [⟨"X", 380, some "EGLL", some "EGPH", some 0⟩,
   ⟨"X", 381, some "EGLL", some "EGPH", some 0⟩,
   ⟨"X", 920, some "EGLL", some "EGPH", some 0⟩,
   ⟨"X", 921, some "EGLL", some "EGPH", some 0⟩]

/-- A prior tail matching OD key K of aircraft X with flight id 7. -/
def c4tail : List TailRec :=
  [⟨some 7, "X", some "EGLL", some "EGPH", 0, some "X_EGLL_EGPH"⟩]

/-- Aircraft X: two records on the matched key K, then two records on a
different OD key L. -/
def c4u : List UfiRec :=
  [⟨"X", 10, some "EGLL", some "EGPH", some "X_EGLL_EGPH"⟩,
   ⟨"X", 11, some "EGLL", some "EGPH", some "X_EGLL_EGPH"⟩,
   ⟨"X", 12, some "EGPH", some "EGJJ", some "X_EGPH_EGJJ"⟩,
   ⟨"X", 13, some "EGPH", some "EGJJ", some "X_EGPH_EGJJ"⟩]

/-- The continued stream computed from `c4tail` and `c4u`: the prior id 7
is filled through the L records as well. -/
def c4cont : List JoinRec :=
  [⟨"X", 10, some "EGLL", some "EGPH", some "X_EGLL_EGPH", some 7⟩,
   ⟨"X", 11, some "EGLL", some "EGPH", some "X_EGLL_EGPH", some 7⟩,
   ⟨"X", 12, some "EGPH", some "EGJJ", some "X_EGPH_EGJJ", some 7⟩,
   ⟨"X", 13, some "EGPH", some "EGJJ", some "X_EGPH_EGJJ", some 7⟩]

/-- Three records of one OD key labeled as two dense, gap-free flights
that are only one hour apart. -/
def c8rows : List OutRec :=
  [⟨"X", 0, some "EGLL", some "EGPH", some 0⟩,
   ⟨"X", 60, some "EGLL", some "EGPH", some 0⟩,
   ⟨"X", 120, some "EGLL", some "EGPH", some 1⟩]

/-! ### Ordering lemmas for the sort key -/

theorem natsLt_trichotomy : ∀ a b : List Nat,
    natsLt a b = true ∨ a = b ∨ natsLt b a = true
  | [], [] => Or.inr (Or.inl rfl)
  | [], _ :: _ => Or.inl rfl
  | _ :: _, [] => Or.inr (Or.inr rfl)
  | a :: as, b :: bs => by
    rcases Nat.lt_trichotomy a b with h | h | h
    · exact Or.inl (by simp [natsLt]; exact Or.inl h)
    · subst h
      rcases natsLt_trichotomy as bs with h2 | h2 | h2
      · exact Or.inl (by simp [natsLt]; exact h2)
      · exact Or.inr (Or.inl (by rw [h2]))
      · exact Or.inr (Or.inr (by simp [natsLt]; exact h2))
    · exact Or.inr (Or.inr (by simp [natsLt]; exact Or.inl h))

theorem natsLt_trans : ∀ a b c : List Nat,
    natsLt a b = true → natsLt b c = true → natsLt a c = true := by
  intro a
  induction a with
  | nil =>
    intro b c hab hbc
    cases b with
    | nil => simp [natsLt] at hab
    | cons y ys =>
      cases c with
      | nil => simp [natsLt] at hbc
      | cons z zs => simp [natsLt]
  | cons x xs ih =>
    intro b c hab hbc
    cases b with
    | nil => simp [natsLt] at hab
    | cons y ys =>
      cases c with
      | nil => simp [natsLt] at hbc
      | cons z zs =>
        simp only [natsLt, Bool.or_eq_true, Bool.and_eq_true, decide_eq_true_eq,
          beq_iff_eq] at hab hbc ⊢
        rcases hab with h1 | ⟨e1, h1⟩
        · rcases hbc with h2 | ⟨e2, h2⟩
          · exact Or.inl (Nat.lt_trans h1 h2)
          · exact Or.inl (e2 ▸ h1)
        · rcases hbc with h2 | ⟨e2, h2⟩
          · exact Or.inl (e1 ▸ h2)
          · exact Or.inr ⟨e1.trans e2, ih ys zs h1 h2⟩

theorem posLe_total (p q : List Nat × Int) : posLe p q = true ∨ posLe q p = true := by
  rcases natsLt_trichotomy p.1 q.1 with h | h | h
  · exact Or.inl (by simp [posLe]; exact Or.inl h)
  · rcases Int.le_total p.2 q.2 with h2 | h2
    · exact Or.inl (by simp [posLe]; exact Or.inr ⟨h, h2⟩)
    · exact Or.inr (by simp [posLe]; exact Or.inr ⟨h.symm, h2⟩)
  · exact Or.inr (by simp [posLe]; exact Or.inl h)

theorem posLe_trans (p q r : List Nat × Int)
    (hpq : posLe p q = true) (hqr : posLe q r = true) : posLe p r = true := by
  simp only [posLe, Bool.or_eq_true, Bool.and_eq_true, decide_eq_true_eq,
    beq_iff_eq] at hpq hqr ⊢
  rcases hpq with h1 | ⟨e1, h1⟩
  · rcases hqr with h2 | ⟨e2, h2⟩
    · exact Or.inl (natsLt_trans _ _ _ h1 h2)
    · exact Or.inl (e2 ▸ h1)
  · rcases hqr with h2 | ⟨e2, h2⟩
    · exact Or.inl (e1 ▸ h2)
    · exact Or.inr ⟨e1.trans e2, le_trans h1 h2⟩

theorem rowLe_total {α : Type} [HasPos α] (a b : α) :
    rowLe a b = true ∨ rowLe b a = true :=
  posLe_total (posOf a) (posOf b)

theorem rowLe_trans {α : Type} [HasPos α] {a b c : α}
    (h1 : rowLe a b = true) (h2 : rowLe b c = true) : rowLe a c = true :=
  posLe_trans (posOf a) (posOf b) (posOf c) h1 h2

/-! ### Sorting lemmas -/

theorem insertPos_perm {α : Type} [HasPos α] (a : α) :
    ∀ l : List α, (insertPos a l).Perm (a :: l) := by
  intro l
  induction l with
  | nil => exact List.Perm.refl _
  | cons b t ih =>
    simp only [insertPos]
    by_cases h : rowLe a b = true
    · rw [if_pos h]
    · rw [if_neg h]
      exact (ih.cons b).trans (List.Perm.swap a b t)

theorem sortByPos_perm {α : Type} [HasPos α] :
    ∀ l : List α, (sortByPos l).Perm l := by
  intro l
  induction l with
  | nil => exact List.Perm.refl _
  | cons a t ih =>
    have : sortByPos (a :: t) = insertPos a (sortByPos t) := rfl
    rw [this]
    exact (insertPos_perm a (sortByPos t)).trans (ih.cons a)

theorem mem_sortByPos {α : Type} [HasPos α] {x : α} {l : List α} :
    x ∈ sortByPos l ↔ x ∈ l :=
  (sortByPos_perm l).mem_iff

theorem mem_insertPos {α : Type} [HasPos α] {x a : α} {l : List α} :
    x ∈ insertPos a l ↔ x = a ∨ x ∈ l := by
  rw [(insertPos_perm a l).mem_iff]
  simp

theorem pairwise_insertPos {α : Type} [HasPos α] (a : α) {l : List α}
    (h : l.Pairwise (fun x y => rowLe x y = true)) :
    (insertPos a l).Pairwise (fun x y => rowLe x y = true) := by
  induction l with
  | nil => simp [insertPos]
  | cons b t ih =>
    rcases List.pairwise_cons.mp h with ⟨hb, ht⟩
    simp only [insertPos]
    by_cases hab : rowLe a b = true
    · rw [if_pos hab]
      refine List.Pairwise.cons ?_ h
      intro x hx
      rcases List.mem_cons.mp hx with rfl | hxt
      · exact hab
      · exact rowLe_trans hab (hb x hxt)
    · rw [if_neg hab]
      have hba : rowLe b a = true := by
        rcases rowLe_total a b with h1 | h1
        · exact absurd h1 hab
        · exact h1
      refine List.Pairwise.cons ?_ (ih ht)
      intro x hx
      rcases mem_insertPos.mp hx with rfl | hxt
      · exact hba
      · exact hb x hxt

theorem sorted_sortByPos {α : Type} [HasPos α] (l : List α) :
    (sortByPos l).Pairwise (fun x y => rowLe x y = true) := by
  induction l with
  | nil => exact List.Pairwise.nil
  | cons a t ih => exact pairwise_insertPos a ih

theorem sortByPos_of_sorted {α : Type} [HasPos α] {l : List α}
    (h : l.Pairwise (fun x y => rowLe x y = true)) : sortByPos l = l := by
  induction l with
  | nil => rfl
  | cons a t ih =>
    rcases List.pairwise_cons.mp h with ⟨ha, ht⟩
    have h1 : sortByPos (a :: t) = insertPos a (sortByPos t) := rfl
    rw [h1, ih ht]
    cases t with
    | nil => rfl
    | cons b t' =>
      simp only [insertPos]
      rw [if_pos (ha b (List.mem_cons_self b t'))]

/-- Sortedness transfers along equal sort-key sequences. -/
theorem pairwise_rowLe_of_map_posOf {α β : Type} [HasPos α] [HasPos β]
    {l1 : List α} {l2 : List β} (h : l1.map posOf = l2.map posOf)
    (hp : l1.Pairwise (fun x y => rowLe x y = true)) :
    l2.Pairwise (fun x y => rowLe x y = true) := by
  have h1 : (l1.map posOf).Pairwise (fun p q => posLe p q = true) :=
    List.pairwise_map.mpr hp
  rw [h] at h1
  exact List.pairwise_map.mp h1

/-! ### Run-length id lemmas -/

theorem rleTagAux_map_fst {α κ : Type} [DecidableEq κ] (key : α → κ) :
    ∀ (l : List α) (p : κ) (n : Nat),
      (rleTagAux key p n l).map Prod.fst = l := by
  intro l
  induction l with
  | nil => intro p n; rfl
  | cons a t ih =>
    intro p n
    by_cases h : key a = p
    · simp [rleTagAux, if_pos h, ih]
    · simp [rleTagAux, if_neg h, ih]

theorem rleTag_map_fst {α κ : Type} [DecidableEq κ] (key : α → κ) (l : List α) :
    (rleTag key l).map Prod.fst = l := by
  cases l with
  | nil => rfl
  | cons a t => simp [rleTag, rleTagAux_map_fst]

theorem rleTagAux_inv {α κ : Type} [DecidableEq κ] (key : α → κ) :
    ∀ (l : List α) (p : κ) (n : Nat),
      (rleTagAux key p n l).Pairwise
        (fun x y => x.2 = y.2 → key x.1 = key y.1) ∧
      ∀ x ∈ rleTagAux key p n l, n ≤ x.2 ∧ (x.2 = n → key x.1 = p) := by
  intro l
  induction l with
  | nil =>
    intro p n
    exact ⟨List.Pairwise.nil, fun x hx => absurd hx (by simp [rleTagAux])⟩
  | cons a t ih =>
    intro p n
    by_cases h : key a = p
    · obtain ⟨ihp, ihm⟩ := ih p n
      simp only [rleTagAux, if_pos h]
      refine ⟨List.Pairwise.cons ?_ ihp, ?_⟩
      · intro y hy heq
        have := (ihm y hy).2 heq.symm
        rw [h, this]
      · intro x hx
        rcases List.mem_cons.mp hx with rfl | hxt
        · exact ⟨Nat.le_refl n, fun _ => h⟩
        · exact ihm x hxt
    · obtain ⟨ihp, ihm⟩ := ih (key a) (n + 1)
      simp only [rleTagAux, if_neg h]
      refine ⟨List.Pairwise.cons ?_ ihp, ?_⟩
      · intro y hy heq
        exact ((ihm y hy).2 heq.symm).symm
      · intro x hx
        rcases List.mem_cons.mp hx with rfl | hxt
        · exact ⟨Nat.le_succ n, fun he => absurd he (by omega)⟩
        · obtain ⟨h1, _⟩ := ihm x hxt
          exact ⟨by omega, fun he => absurd he (by omega)⟩

theorem rleTag_pairwise {α κ : Type} [DecidableEq κ] (key : α → κ) (l : List α) :
    (rleTag key l).Pairwise (fun x y => x.2 = y.2 → key x.1 = key y.1) := by
  cases l with
  | nil => exact List.Pairwise.nil
  | cons a t =>
    obtain ⟨ihp, ihm⟩ := rleTagAux_inv key t (key a) 0
    refine List.Pairwise.cons ?_ ihp
    intro y hy heq
    exact ((ihm y hy).2 heq.symm).symm

theorem rleTagAux_stepsOk {α κ : Type} [DecidableEq κ] (key : α → κ) :
    ∀ (l : List α) (p : κ) (n : Nat),
      denseConsecB.stepsOk (Int.ofNat n ::
        (rleTagAux key p n l).map (fun x => Int.ofNat x.2)) = true := by
  intro l
  induction l with
  | nil => intro p n; rfl
  | cons a t ih =>
    intro p n
    by_cases h : key a = p
    · simp only [rleTagAux, if_pos h, List.map_cons, denseConsecB.stepsOk,
        Bool.and_eq_true, Bool.or_eq_true, beq_iff_eq]
      exact ⟨Or.inl trivial, ih p n⟩
    · simp only [rleTagAux, if_neg h, List.map_cons, denseConsecB.stepsOk,
        Bool.and_eq_true, Bool.or_eq_true, beq_iff_eq]
      exact ⟨Or.inr (Int.ofNat_succ n), ih (key a) (n + 1)⟩

theorem rleTag_denseConsec {α κ : Type} [DecidableEq κ] (key : α → κ) (l : List α) :
    denseConsecB ((rleTag key l).map (fun x => Int.ofNat x.2)) = true := by
  cases l with
  | nil => rfl
  | cons a t =>
    simp only [rleTag, List.map_cons, denseConsecB, Bool.and_eq_true, beq_iff_eq]
    exact ⟨rfl, rleTagAux_stepsOk key t (key a) 0⟩

/-! ### Grouping lemmas -/

theorem mem_insertNew {κ : Type} [DecidableEq κ] {ks : List κ} {k x : κ} :
    x ∈ insertNew ks k ↔ x ∈ ks ∨ x = k := by
  by_cases h : k ∈ ks
  · simp only [insertNew, if_pos h]
    constructor
    · exact Or.inl
    · intro hx
      rcases hx with hx | rfl
      · exact hx
      · exact h
  · simp [insertNew, if_neg h]

theorem nodup_insertNew {κ : Type} [DecidableEq κ] {ks : List κ} {k : κ}
    (h : ks.Nodup) : (insertNew ks k).Nodup := by
  by_cases hk : k ∈ ks
  · simpa [insertNew, if_pos hk] using h
  · rw [insertNew, if_neg hk]
    refine List.Nodup.append h (List.nodup_singleton k) ?_
    intro x hx hxk
    rcases List.mem_singleton.mp hxk with rfl
    exact hk hx

theorem nodup_keysInOrder {α κ : Type} [DecidableEq κ] (key : α → κ) (l : List α) :
    (keysInOrder key l).Nodup := by
  have main : ∀ (t : List α) (ks : List κ), ks.Nodup →
      (t.foldl (fun ks a => insertNew ks (key a)) ks).Nodup := by
    intro t
    induction t with
    | nil => intro ks h; exact h
    | cons a t ih =>
      intro ks h
      exact ih _ (nodup_insertNew h)
  exact main l [] List.nodup_nil

theorem mem_keysInOrder {α κ : Type} [DecidableEq κ] (key : α → κ) (l : List α)
    (k : κ) : k ∈ keysInOrder key l ↔ ∃ a ∈ l, key a = k := by
  have main : ∀ (t : List α) (ks : List κ),
      (k ∈ t.foldl (fun ks a => insertNew ks (key a)) ks ↔
        k ∈ ks ∨ ∃ a ∈ t, key a = k) := by
    intro t
    induction t with
    | nil => intro ks; simp
    | cons a t ih =>
      intro ks
      rw [List.foldl_cons, ih]
      rw [mem_insertNew]
      constructor
      · intro h
        rcases h with (h | h) | h
        · exact Or.inl h
        · exact Or.inr ⟨a, List.mem_cons_self a t, h.symm⟩
        · rcases h with ⟨b, hb, hkb⟩
          exact Or.inr ⟨b, List.mem_cons_of_mem a hb, hkb⟩
      · intro h
        rcases h with h | ⟨b, hb, hkb⟩
        · exact Or.inl (Or.inl h)
        · rcases List.mem_cons.mp hb with rfl | hbt
          · exact Or.inl (Or.inr hkb.symm)
          · exact Or.inr ⟨b, hbt, hkb⟩
  rw [keysInOrder, main l []]
  simp

theorem map_id_of_mem {α : Type} {f : α → α} :
    ∀ {l : List α}, (∀ a ∈ l, f a = a) → l.map f = l := by
  intro l
  induction l with
  | nil => intro _; rfl
  | cons a t ih =>
    intro h
    rw [List.map_cons, h a (List.mem_cons_self a t),
      ih (fun b hb => h b (List.mem_cons_of_mem a hb))]

theorem map_fst_groupBy {α κ : Type} [DecidableEq κ] (key : α → κ) (l : List α) :
    (groupBy key l).map Prod.fst = keysInOrder key l := by
  rw [groupBy, List.map_map]
  exact map_id_of_mem (fun a _ => rfl)

theorem mem_groupBy {α κ : Type} [DecidableEq κ] {key : α → κ} {l : List α}
    {kg : κ × List α} : kg ∈ groupBy key l ↔
      kg.1 ∈ keysInOrder key l ∧ kg.2 = l.filter (fun a => key a = kg.1) := by
  rw [groupBy, List.mem_map]
  constructor
  · intro h
    rcases h with ⟨k, hk, rfl⟩
    exact ⟨hk, rfl⟩
  · intro h
    refine ⟨kg.1, h.1, ?_⟩
    obtain ⟨k, g⟩ := kg
    simp only at h
    rw [h.2]

theorem pairwise_fst_groupBy {α κ : Type} [DecidableEq κ] (key : α → κ)
    (l : List α) :
    (groupBy key l).Pairwise (fun a b => a.1 ≠ b.1) := by
  have h1 : ((groupBy key l).map Prod.fst).Nodup := by
    rw [map_fst_groupBy]
    exact nodup_keysInOrder key l
  exact List.pairwise_map.mp h1

/-- `Pairwise` transfer through `filterMap`. -/
theorem pairwise_filterMap_of {α β : Type} {R : α → α → Prop} {S : β → β → Prop}
    (f : α → Option β)
    (H : ∀ a b x y, R a b → f a = some x → f b = some y → S x y) :
    ∀ {l : List α}, l.Pairwise R → (l.filterMap f).Pairwise S := by
  intro l h
  induction h with
  | nil => simp
  | @cons a t ha _ ih =>
    cases hf : f a with
    | none => simpa [List.filterMap_cons, hf] using ih
    | some x =>
      rw [List.filterMap_cons, hf]
      refine List.Pairwise.cons ?_ ih
      intro y hy
      rcases List.mem_filterMap.mp hy with ⟨b, hb, hfb⟩
      exact H a b x y (ha b hb) hf hfb

/-! ### Map and length helpers -/

theorem gapFlags_length (thr : Int) :
    ∀ (st : List (Int × Int)) (l : List FidRec),
      (gapFlags thr st l).length = l.length := by
  intro st l
  induction l generalizing st with
  | nil => rfl
  | cons r t ih => simp [gapFlags, ih]

theorem cumSumOpt_length :
    ∀ (acc : Int) (l : List (Option Bool)),
      (cumSumOpt acc l).length = l.length := by
  intro acc l
  induction l generalizing acc with
  | nil => rfl
  | cons o t ih =>
    cases o with
    | none => simp [cumSumOpt, ih]
    | some b => simp [cumSumOpt, ih]

theorem seperate_core_map_fst (thr : Int) (l : List FidRec) :
    (seperate_core thr l).map Prod.fst = sortByPos l := by
  rw [seperate_core]
  apply List.map_fst_zip
  rw [List.length_map, List.length_zip, cumSumOpt_length, gapFlags_length]
  simp

/-! ### Forward-fill characterization (Continuity Matcher relabeling) -/

theorem lookupA_updateA {κ ν : Type} [DecidableEq κ]
    (st : List (κ × ν)) (k : κ) (v : ν) (x : κ) :
    lookupA (updateA st k v) x = if x = k then some v else lookupA st x := by
  induction st with
  | nil =>
    simp only [updateA, lookupA]
  | cons p st ih =>
    obtain ⟨pk, pv⟩ := p
    by_cases h1 : k = pk
    · subst h1
      simp only [updateA, if_pos rfl, lookupA]
      by_cases h2 : x = k <;> simp [h2]
    · simp only [updateA, if_neg h1, lookupA, ih]
      by_cases h2 : x = pk
      · by_cases h3 : x = k
        · exact absurd (h3.symm.trans h2) h1
        · simp [h2, h3]
          rw [if_neg (fun he : pk = k => h1 he.symm)]
      · by_cases h3 : x = k
        · simp [h2, h3]
          exact fun he => absurd he h1
        · simp [h2, h3]

theorem lastFidFrom_cons_some (st : List (String × Int)) (r : JoinRec)
    (xs : List JoinRec) (v : Int) (hr : r.flight_id = some v) (k : String) :
    lastFidFrom st (r :: xs) k =
      lastFidFrom (updateA st r.icao_address v) xs k := by
  rw [lastFidFrom, lastFidFrom, List.foldl_cons]
  congr 1
  rw [hr, lookupA_updateA]
  by_cases h : r.icao_address = k
  · rw [if_pos h, if_pos (h.symm)]
  · rw [if_neg h, if_neg (fun hk => h hk.symm)]

theorem lastFidFrom_cons_none (st : List (String × Int)) (r : JoinRec)
    (xs : List JoinRec) (hr : r.flight_id = none) (k : String) :
    lastFidFrom st (r :: xs) k = lastFidFrom st xs k := by
  rw [lastFidFrom, lastFidFrom, List.foldl_cons]
  congr 1
  rw [hr]
  by_cases h : r.icao_address = k
  · rw [if_pos h]
  · rw [if_neg h]

theorem ffillFlightId_getElem (l : List JoinRec) :
    ∀ (st : List (String × Int)) (i : Nat),
      (ffillFlightId st l)[i]? = (l[i]?).map (fun r =>
        { r with flight_id :=
            match r.flight_id with
            | some v => some v
            | none => lastFidFrom st (l.take i) r.icao_address }) := by
  induction l with
  | nil => intro st i; simp [ffillFlightId]
  | cons r t ih =>
    intro st i
    cases hr : r.flight_id with
    | some v =>
      rw [ffillFlightId, hr]
      cases i with
      | zero =>
        simp only [List.getElem?_cons_zero, Option.map_some, hr]
        obtain ⟨a, b, c, d, e, f⟩ := r
        simp only at hr
        subst hr
        rfl
      | succ j =>
        simp only [List.getElem?_cons_succ, ih, List.take_succ_cons]
        congr 1
        funext x
        cases hx : x.flight_id with
        | some w => simp only [hx]
        | none =>
          simp only [hx]
          rw [lastFidFrom_cons_some st r (t.take j) v hr]
    | none =>
      rw [ffillFlightId, hr]
      cases i with
      | zero =>
        simp only [List.getElem?_cons_zero, Option.map_some', hr, List.take_zero]
        rfl
      | succ j =>
        simp only [List.getElem?_cons_succ, ih, List.take_succ_cons]
        congr 1
        funext x
        cases hx : x.flight_id with
        | some w => simp only [hx]
        | none =>
          simp only [hx]
          rw [lastFidFrom_cons_none st r (t.take j) hr]

/-! ### Claim theorems -/

/-- C1 (code bug): flight ids are NOT globally unique across chunks.
`next_flight_id` is computed as one more than the max id of the
horizon-filtered tail state, not of all ids produced so far: BBB's flight
in chunk 1 receives id 1, falls out of the tail (older than 6h before the
chunk max), the tail max is 0, and chunk 2 assigns id 1 again to the brand
new aircraft CCC. -/
theorem flight_id_reuse_across_chunks :
    assign_flight_id_to_unique_flights defaultConfig none c1chunk1 = .ok c1out1 ∧
    create_flight_info_dataframe_for_latest_flights ⟨stdCols, c1out1⟩ = .ok c1tail1 ∧
    assign_flight_id_to_unique_flights defaultConfig (some c1tail1) c1chunk2 = .ok c1out2 ∧
    OutRec.mk "BBB" 1 (some "EGLL") (some "EGPH") (some 1) ∈ c1out1 ∧
    OutRec.mk "CCC" 701 (some "EGLL") (some "EGPH") (some 1) ∈ c1out2 ∧
    c1chunk1.all (fun r => r.icao_address != "CCC") = true ∧
    c1tail1.all (fun t => t.icao_address != "CCC") = true := by
  decide

/-- C2 (counterexample): a single chunk in which one aircraft flies K,
then L, then K again leaves TWO open tails with flight ids 0 and 2 for the
same (aircraft, origin, destination) key in the Flight Tail State. -/
theorem two_open_tails_same_od_key :
    assign_flight_id_to_unique_flights defaultConfig none c2in = .ok c2out ∧
    create_flight_info_dataframe_for_latest_flights ⟨stdCols, c2out⟩ = .ok c2tail ∧
    TailRec.mk (some 0) "X" (some "EGLL") (some "EGPH") 3 (some "X_EGLL_EGPH") ∈ c2tail ∧
    TailRec.mk (some 2) "X" (some "EGLL") (some "EGPH") 23 (some "X_EGLL_EGPH") ∈ c2tail := by
  decide

/-- C3 (counterexample): a 539-minute gap (> 360-minute threshold) inside
the chunk's portion of a continued flight does NOT split it: records at
minutes 381 and 920 are time-adjacent within the output and both keep
flight id 0. -/
theorem continued_gap_not_split :
    assign_flight_id_to_unique_flights defaultConfig (some c3tail) c3in = .ok c3out ∧
    OutRec.mk "X" 381 (some "EGLL") (some "EGPH") (some 0) ∈ c3out ∧
    OutRec.mk "X" 920 (some "EGLL") (some "EGPH") (some 0) ∈ c3out ∧
    defaultConfig.hardGapMinutes < 920 - 381 ∧
    c3out.all (fun r => !(decide (381 < r.timestamp) && decide (r.timestamp < 920))) = true := by
  decide

/-- C4 (counterexample): after the continuation of OD key K is matched,
the prior flight id 7 is forward filled through aircraft X's subsequent
records of the DIFFERENT OD key L; the L records land in the continued
stream labeled 7 and the new stream is empty, although no tail matches L. -/
theorem od_boundary_not_respected :
    (segment_dataframe_into_new_and_continued_flights c4tail c4u).1 = c4cont ∧
    (segment_dataframe_into_new_and_continued_flights c4tail c4u).2 = [] ∧
    JoinRec.mk "X" 12 (some "EGPH") (some "EGJJ") (some "X_EGPH_EGJJ") (some 7) ∈ c4cont ∧
    c4tail.all (fun t => t.unique_flight_identifier != some "X_EGPH_EGJJ") = true := by
  decide

/-- C5 (code bug): `filter_and_fill_origin_destination_pair` drops every
ROW with a null departure or arrival (the elementwise `is_not_null` under
`.over` is per row), so a repairable record of an aircraft that has known
airports elsewhere in the chunk is discarded instead of filled. -/
theorem null_airport_rows_dropped_eval :
    filter_and_fill_origin_destination_pair
      [⟨"A", 0, some "EGLL", some "EGPH"⟩, ⟨"A", 1, none, some "EGPH"⟩] =
      [⟨"A", 0, some "EGLL", some "EGPH"⟩] := by
  decide

/-- C6 (code bug): on the 5-record single-flight scenario the engine
labels records 2..5 with flight id 0 but leaves the FIRST record's flight
id null (diff's leading null survives cum_sum and the addition), instead
of labeling all 5 records with id 0. -/
theorem single_flight_scenario_eval :
    assign_flight_id_to_unique_flights defaultConfig none c6in = .ok
      [⟨"X", 0, some "EGLL", some "EGPH", none⟩,
       ⟨"X", 1, some "EGLL", some "EGPH", some 0⟩,
       ⟨"X", 2, some "EGLL", some "EGPH", some 0⟩,
       ⟨"X", 3, some "EGLL", some "EGPH", some 0⟩,
       ⟨"X", 4, some "EGLL", some "EGPH", some 0⟩] ∧
    assign_flight_id_to_unique_flights defaultConfig (some []) c6in = .ok
      [⟨"X", 0, some "EGLL", some "EGPH", none⟩,
       ⟨"X", 1, some "EGLL", some "EGPH", some 0⟩,
       ⟨"X", 2, some "EGLL", some "EGPH", some 0⟩,
       ⟨"X", 3, some "EGLL", some "EGPH", some 0⟩,
       ⟨"X", 4, some "EGLL", some "EGPH", some 0⟩] := by
  decide

/-- C7 (counterexample): both K-runs of `c7in` have more than 3 records
and survive the noise filter, but after the 2-record L-run between them is
dropped they become adjacent and the `rle_id` renumbering over
`unique_flight_identifier` merges the two distinct surviving candidate
flights into the single id 0. -/
theorem survivors_merged_after_drop :
    3 < c7in.countP (fun x => x.first_flight_id = 0) ∧
    3 < c7in.countP (fun x => x.first_flight_id = 2) ∧
    (remove_erroneous_single_point_flights c7in).length = 8 ∧
    (remove_erroneous_single_point_flights c7in).all
      (fun r => r.first_flight_id = 0) = true := by
  decide

/-- C8 (counterexample): the labeling of `c8rows` is dense and gap-split,
yet re-running the Candidate Grouper's run-length id assignment plus the
gap splitter merges the two flights (only one hour apart, same OD key):
the flight partition is not a fixed point for an arbitrary dense,
gap-split labeling. -/
theorem dense_gap_split_not_fixed_point :
    denseB (c8rows.filterMap OutRec.flight_id) = true ∧
    gapSplitOkB defaultConfig.hardGapMinutes c8rows = true ∧
    samePartitionB (c8rows.map OutRec.flight_id)
      ((grouperGapSplit defaultConfig.hardGapMinutes
        (c8rows.map toInRecO)).map Prod.snd) = false := by
  decide

/-- C9 (confirmed): empty input is never an error: segmentation of an
empty dataframe returns the empty output for any configuration and any
previous flight info, and the tail-state builder returns an empty frame on
an empty dataframe for any column set. -/
theorem empty_input_yields_empty_output (config : FlightSegmentationConfig)
    (prev : Option (List TailRec)) (cols : List String) :
    assign_flight_id_to_unique_flights config prev [] = .ok [] ∧
    create_flight_info_dataframe_for_latest_flights ⟨cols, []⟩ = .ok [] :=
  ⟨rfl, rfl⟩

/-- C4 (amended): the prior flight id is propagated forward through ALL of
the aircraft's subsequent records, with no regard to the OD key: the
filled flight id at position `i` is the row's own joined id if present,
else the most recent non-null joined id among the preceding rows of the
same aircraft (`lastFidFrom` folds over predecessors filtered by
`icao_address` only); the continued stream is exactly the rows with a
filled id and the new stream the rest. -/
theorem forward_fill_ignores_od_key (p : List TailRec) (u : List UfiRec) (i : Nat) :
    ((filledRows p u)[i]? = ((joinedRows p u)[i]?).map (fun r =>
      { r with flight_id :=
          match r.flight_id with
          | some v => some v
          | none => lastFidFrom [] ((joinedRows p u).take i) r.icao_address })) ∧
    (segment_dataframe_into_new_and_continued_flights p u).1 =
      (filledRows p u).filter (fun r => r.flight_id.isSome) ∧
    (segment_dataframe_into_new_and_continued_flights p u).2 =
      ((filledRows p u).filter (fun r => r.flight_id.isNone)).map
        (fun r => UfiRec.mk r.icao_address r.timestamp r.departure_airport_icao
          r.arrival_airport_icao r.unique_flight_identifier) :=
  ⟨ffillFlightId_getElem (joinedRows p u) [] i, rfl, rfl⟩

/-- The tail-state aggregation produces at most one row per
`(flight_id, aircraft, origin, destination)` group key. -/
theorem tailStateOf_pairwise (rows : List OutRec) :
    (tailStateOf rows).Pairwise
      (fun a b => ¬(a.flight_id = b.flight_id ∧
        a.icao_address = b.icao_address ∧
        a.departure_airport_icao = b.departure_airport_icao ∧
        a.arrival_airport_icao = b.arrival_airport_icao)) := by
  unfold tailStateOf
  cases hm : maxOpt (rows.map OutRec.timestamp) with
  | none => exact List.Pairwise.nil
  | some m =>
    apply List.Pairwise.filter
    refine pairwise_filterMap_of _ ?_ (pairwise_fst_groupBy
      (fun r : OutRec => (r.flight_id, r.icao_address,
        r.departure_airport_icao, r.arrival_airport_icao)) rows)
    intro a b x y hab hfa hfb hcon
    apply hab
    obtain ⟨⟨af, ai, ad, aa⟩, ga⟩ := a
    obtain ⟨⟨bf, bi, bd, ba⟩, gb⟩ := b
    rcases Option.map_eq_some'.mp hfa with ⟨la, _, hxa⟩
    rcases Option.map_eq_some'.mp hfb with ⟨lb, _, hyb⟩
    subst hxa
    subst hyb
    obtain ⟨h1, h2, h3, h4⟩ := hcon
    simp only at h1 h2 h3 h4 ⊢
    subst h1
    subst h2
    subst h3
    subst h4
    exact rfl

/-- C10 (confirmed): the tail-state builder raises exactly on a non-empty
dataframe missing a required column; the emptiness check runs first, so an
empty dataframe returns an empty frame whatever its columns are. -/
theorem column_check_error_iff :
    (∀ df : OutDF,
      isErrorE (create_flight_info_dataframe_for_latest_flights df) = true ↔
        (df.rows ≠ [] ∧
          requiredColumns.filter (fun c => !(df.cols.contains c)) ≠ [])) ∧
    ∀ cols : List String,
      create_flight_info_dataframe_for_latest_flights ⟨cols, []⟩ = .ok [] := by
  constructor
  · intro df
    unfold create_flight_info_dataframe_for_latest_flights
    cases hr : df.rows with
    | nil => simp [isErrorE]
    | cons r rs =>
      rw [if_neg (by simp)]
      cases hmis : requiredColumns.filter (fun c => !(df.cols.contains c)) with
      | nil =>
        rw [if_pos (show ([] : List String).isEmpty = true from rfl)]
        simp [isErrorE]
      | cons c cs =>
        rw [if_neg (by simp)]
        simp [isErrorE]
  · intro cols
    rfl

/-- C2 (amended): the Flight Tail State contains at most one entry per
`(flight_id, aircraft, origin, destination)` group key; uniqueness per
`(aircraft, OD key)` alone does not hold, since several flight ids with
the same OD key can sit inside the lookback horizon together. -/
theorem tail_state_unique_per_flight_od_key (df : OutDF) :
    (tailOrNil (create_flight_info_dataframe_for_latest_flights df)).Pairwise
      (fun a b => ¬(a.flight_id = b.flight_id ∧
        a.icao_address = b.icao_address ∧
        a.departure_airport_icao = b.departure_airport_icao ∧
        a.arrival_airport_icao = b.arrival_airport_icao)) := by
  unfold create_flight_info_dataframe_for_latest_flights
  cases hr : df.rows with
  | nil => exact List.Pairwise.nil
  | cons r rs =>
    rw [if_neg (by simp)]
    cases hmis : requiredColumns.filter (fun c => !(df.cols.contains c)) with
    | nil =>
      rw [if_pos (show ([] : List String).isEmpty = true from rfl)]
      exact tailStateOf_pairwise (r :: rs)
    | cons c cs =>
      rw [if_neg (by simp)]
      exact List.Pairwise.nil

/-- Membership in the high-count id list computed by the noise filter is
exactly "more than 3 records with this candidate id". -/
theorem mem_highCounts (s : List FidRec) (k : Int) :
    ((((groupBy FidRec.first_flight_id s).filter
      (fun kg => 3 < kg.2.length)).map Prod.fst).contains k = true) ↔
    (k ∈ keysInOrder FidRec.first_flight_id s ∧
      3 < (s.filter (fun x => x.first_flight_id = k)).length) := by
  rw [show (((groupBy FidRec.first_flight_id s).filter
      (fun kg => 3 < kg.2.length)).map Prod.fst).contains k =
    List.elem k (((groupBy FidRec.first_flight_id s).filter
      (fun kg => 3 < kg.2.length)).map Prod.fst) from rfl]
  rw [List.elem_iff, List.mem_map]
  constructor
  · rintro ⟨kg, hkg, hfst⟩
    rw [List.mem_filter] at hkg
    obtain ⟨hgb, hlen⟩ := hkg
    rcases mem_groupBy.mp hgb with ⟨hkey, hgrp⟩
    subst hfst
    refine ⟨hkey, ?_⟩
    rw [← hgrp]
    exact of_decide_eq_true hlen
  · rintro ⟨hkey, hlen⟩
    refine ⟨(k, s.filter (fun x => x.first_flight_id = k)), ?_, rfl⟩
    rw [List.mem_filter]
    exact ⟨mem_groupBy.mpr ⟨hkey, rfl⟩, decide_eq_true hlen⟩

/-- C7 (amended): the noise filter keeps exactly the records of candidate
flights with more than 3 records (in sorted order), and renumbers the
survivors by run-length over `unique_flight_identifier` into a dense,
zero-based, consecutive id sequence in which rows with different OD keys
always receive different ids; two distinct surviving candidates sharing
one OD key can be merged into a single id when the rows between them are
dropped, so distinctness of ids holds only up to the OD key. -/
theorem noise_filter_contract (l : List FidRec) :
    ((remove_erroneous_single_point_flights l).map dropFirstId =
      ((sortByPos l).filter (fun r =>
        3 < (sortByPos l).countP
          (fun x => x.first_flight_id = r.first_flight_id))).map dropFirstId) ∧
    denseConsecB ((remove_erroneous_single_point_flights l).map
      FidRec.first_flight_id) = true ∧
    (remove_erroneous_single_point_flights l).Pairwise
      (fun a b => a.first_flight_id = b.first_flight_id →
        a.unique_flight_identifier = b.unique_flight_identifier) := by
  have hkept : (sortByPos l).filter (fun r =>
        (((groupBy FidRec.first_flight_id (sortByPos l)).filter
          (fun kg => 3 < kg.2.length)).map Prod.fst).contains r.first_flight_id) =
      (sortByPos l).filter (fun r =>
        3 < (sortByPos l).countP
          (fun x => x.first_flight_id = r.first_flight_id)) := by
    apply List.filter_congr
    intro r hr
    by_cases hc : 3 < (sortByPos l).countP
        (fun x => x.first_flight_id = r.first_flight_id)
    · rw [decide_eq_true hc]
      refine (mem_highCounts (sortByPos l) r.first_flight_id).mpr
        ⟨(mem_keysInOrder FidRec.first_flight_id (sortByPos l)
            r.first_flight_id).mpr ⟨r, hr, rfl⟩, ?_⟩
      rwa [List.countP_eq_length_filter] at hc
    · cases hb : (((groupBy FidRec.first_flight_id (sortByPos l)).filter
          (fun kg => 3 < kg.2.length)).map Prod.fst).contains r.first_flight_id with
      | true =>
        exfalso
        obtain ⟨_, hlen⟩ := (mem_highCounts (sortByPos l) r.first_flight_id).mp hb
        rw [List.countP_eq_length_filter] at hc
        exact hc hlen
      | false => exact (decide_eq_false hc).symm
  refine ⟨?_, ?_, ?_⟩
  · have e2 : (remove_erroneous_single_point_flights l).map dropFirstId =
        ((sortByPos l).filter (fun r =>
          (((groupBy FidRec.first_flight_id (sortByPos l)).filter
            (fun kg => 3 < kg.2.length)).map Prod.fst).contains
              r.first_flight_id)).map dropFirstId := by
      show ((rleTag FidRec.unique_flight_identifier
          ((sortByPos l).filter (fun r =>
            (((groupBy FidRec.first_flight_id (sortByPos l)).filter
              (fun kg => 3 < kg.2.length)).map Prod.fst).contains
                r.first_flight_id))).map
          (fun rn => { rn.1 with first_flight_id := Int.ofNat rn.2 })).map
            dropFirstId = _
      conv_rhs => rw [← rleTag_map_fst FidRec.unique_flight_identifier
        ((sortByPos l).filter (fun r =>
          (((groupBy FidRec.first_flight_id (sortByPos l)).filter
            (fun kg => 3 < kg.2.length)).map Prod.fst).contains
              r.first_flight_id))]
      rw [List.map_map, List.map_map]
      rfl
    rw [e2, hkept]
  · show denseConsecB (((rleTag FidRec.unique_flight_identifier
        ((sortByPos l).filter (fun r =>
          (((groupBy FidRec.first_flight_id (sortByPos l)).filter
            (fun kg => 3 < kg.2.length)).map Prod.fst).contains
              r.first_flight_id))).map
        (fun rn => { rn.1 with first_flight_id := Int.ofNat rn.2 })).map
          FidRec.first_flight_id) = true
    rw [List.map_map]
    exact rleTag_denseConsec FidRec.unique_flight_identifier _
  · show ((rleTag FidRec.unique_flight_identifier
        ((sortByPos l).filter (fun r =>
          (((groupBy FidRec.first_flight_id (sortByPos l)).filter
            (fun kg => 3 < kg.2.length)).map Prod.fst).contains
              r.first_flight_id))).map
        (fun rn => { rn.1 with first_flight_id := Int.ofNat rn.2 })).Pairwise
          (fun a b => a.first_flight_id = b.first_flight_id →
            a.unique_flight_identifier = b.unique_flight_identifier)
    rw [List.pairwise_map]
    refine List.Pairwise.imp ?_
      (rleTag_pairwise FidRec.unique_flight_identifier _)
    intro x y hxy heq
    exact hxy (Int.ofNat.inj heq)

/-- C8 (amended): the Candidate Grouper followed by the Gap Splitter is
idempotent on its own output: dropping the working columns of the result
and re-running the process reproduces the result exactly. (An arbitrary
dense, gap-split labeling need not be a fixed point: time-adjacent
same-key flights closer than the threshold are merged, see the
counterexample.) -/
theorem grouper_gap_split_idempotent (thr : Int) (v : List InRec) :
    grouperGapSplit thr ((grouperGapSplit thr v).map toInRecP) =
      grouperGapSplit thr v := by
  have hs : (sortByPos (add_unique_flight_identifier v)).Pairwise
      (fun x y => rowLe x y = true) := sorted_sortByPos _
  have hpos : ((rleTag (fun r : UfiRec =>
        (r.icao_address, r.unique_flight_identifier))
        (sortByPos (add_unique_flight_identifier v))).map
        (fun rn => (⟨rn.1.icao_address, rn.1.timestamp,
          rn.1.departure_airport_icao, rn.1.arrival_airport_icao,
          rn.1.unique_flight_identifier, Int.ofNat rn.2⟩ : FidRec))).map posOf =
      (sortByPos (add_unique_flight_identifier v)).map posOf := by
    rw [List.map_map]
    conv_rhs => rw [← rleTag_map_fst (fun r : UfiRec =>
      (r.icao_address, r.unique_flight_identifier))
      (sortByPos (add_unique_flight_identifier v)), List.map_map]
    rfl
  have ht := pairwise_rowLe_of_map_posOf hpos.symm hs
  have hsortt := sortByPos_of_sorted ht
  have hmapfst : (seperate_core thr (candidateGroup
      (add_unique_flight_identifier v))).map Prod.fst =
      candidateGroup (add_unique_flight_identifier v) := by
    rw [seperate_core_map_fst]
    exact hsortt
  have hdata : (grouperGapSplit thr v).map toInRecP =
      (sortByPos (add_unique_flight_identifier v)).map
        (fun r : UfiRec => (⟨r.icao_address, r.timestamp,
          r.departure_airport_icao, r.arrival_airport_icao⟩ : InRec)) := by
    show (seperate_core thr (candidateGroup
        (add_unique_flight_identifier v))).map toInRecP = _
    have h1 : (seperate_core thr (candidateGroup
        (add_unique_flight_identifier v))).map toInRecP =
        ((seperate_core thr (candidateGroup
          (add_unique_flight_identifier v))).map Prod.fst).map
          (fun r : FidRec => (⟨r.icao_address, r.timestamp,
            r.departure_airport_icao, r.arrival_airport_icao⟩ : InRec)) := by
      rw [List.map_map]
      rfl
    rw [h1, hmapfst]
    show ((rleTag (fun r : UfiRec =>
        (r.icao_address, r.unique_flight_identifier))
        (sortByPos (add_unique_flight_identifier v))).map
        (fun rn => (⟨rn.1.icao_address, rn.1.timestamp,
          rn.1.departure_airport_icao, rn.1.arrival_airport_icao,
          rn.1.unique_flight_identifier, Int.ofNat rn.2⟩ : FidRec))).map
          (fun r : FidRec => (⟨r.icao_address, r.timestamp,
            r.departure_airport_icao, r.arrival_airport_icao⟩ : InRec)) = _
    rw [List.map_map]
    conv_rhs => rw [← rleTag_map_fst (fun r : UfiRec =>
      (r.icao_address, r.unique_flight_identifier))
      (sortByPos (add_unique_flight_identifier v)), List.map_map]
    rfl
  rw [hdata]
  have h6 : add_unique_flight_identifier
      ((sortByPos (add_unique_flight_identifier v)).map
        (fun r : UfiRec => (⟨r.icao_address, r.timestamp,
          r.departure_airport_icao, r.arrival_airport_icao⟩ : InRec))) =
      sortByPos (add_unique_flight_identifier v) := by
    show ((sortByPos (add_unique_flight_identifier v)).map
        (fun r : UfiRec => (⟨r.icao_address, r.timestamp,
          r.departure_airport_icao, r.arrival_airport_icao⟩ : InRec))).map
        addUfi1 = _
    rw [List.map_map]
    apply map_id_of_mem
    intro x hx
    rcases List.mem_map.mp (mem_sortByPos.mp hx) with ⟨y, _, rfl⟩
    rfl
  show seperate_core thr ((rleTag (fun r : UfiRec =>
      (r.icao_address, r.unique_flight_identifier))
      (sortByPos (add_unique_flight_identifier
        ((sortByPos (add_unique_flight_identifier v)).map
          (fun r : UfiRec => (⟨r.icao_address, r.timestamp,
            r.departure_airport_icao, r.arrival_airport_icao⟩ : InRec)))))).map
      (fun rn => (⟨rn.1.icao_address, rn.1.timestamp,
        rn.1.departure_airport_icao, rn.1.arrival_airport_icao,
        rn.1.unique_flight_identifier, Int.ofNat rn.2⟩ : FidRec))) =
    grouperGapSplit thr v
  rw [h6, sortByPos_of_sorted hs]
  rfl

/-- With an empty previous tail state the continued-flight info is empty. -/
theorem continuedInfo_nil_prev (u : List UfiRec) : continuedInfo [] u = [] := by
  unfold continuedInfo
  generalize nextFlightPerAircraft u = L
  induction L with
  | nil => rfl
  | cons g t ih =>
    simp only [List.flatMap_cons, List.filter_nil, List.map_nil, List.nil_append]
    exact ih

/-- With an empty previous tail state every row joins to a null id. -/
theorem joinedRows_nil_prev (u : List UfiRec) :
    joinedRows [] u = u.map (fun r =>
      (⟨r.icao_address, r.timestamp, r.departure_airport_icao,
        r.arrival_airport_icao, r.unique_flight_identifier, none⟩ : JoinRec)) := by
  unfold joinedRows
  rw [continuedInfo_nil_prev]
  induction u with
  | nil => rfl
  | cons r t ih =>
    rw [List.flatMap_cons, ih, List.map_cons]
    rfl

/-- Forward filling a list whose joined flight ids are all null leaves no
row with a flight id. -/
theorem filter_isSome_ffill_none :
    ∀ l : List JoinRec, (∀ x ∈ l, x.flight_id = none) →
      (ffillFlightId [] l).filter (fun r => r.flight_id.isSome) = [] := by
  intro l
  induction l with
  | nil => intro _; rfl
  | cons r t ih =>
    intro h
    have hr : r.flight_id = none := h r (List.mem_cons_self r t)
    rw [ffillFlightId, hr]
    rw [List.filter_cons_of_neg (by exact fun hc => Bool.noConfusion hc)]
    exact ih (fun x hx => h x (List.mem_cons_of_mem r hx))

/-- With an empty previous tail state the continued stream is empty. -/
theorem segment_nil_prev (u : List UfiRec) :
    (segment_dataframe_into_new_and_continued_flights [] u).1 = [] := by
  show (ffillFlightId [] (joinedRows [] u)).filter
    (fun r => r.flight_id.isSome) = []
  rw [joinedRows_nil_prev]
  apply filter_isSome_ffill_none
  intro x hx
  rcases List.mem_map.mp hx with ⟨y, _, rfl⟩
  rfl

/-- C3 (amended): the Gap Splitter runs only on the new-flight stream:
every record of the continued stream reaches the chunk output unchanged,
keeping the prior flight id, whatever timestamp gaps it contains (the
counterexample shows a 539-minute internal gap that is not split). -/
theorem continued_rows_bypass_gap_splitter (config : FlightSegmentationConfig)
    (p : List TailRec) (df : List InRec) (out : List OutRec) (r : JoinRec)
    (hok : assign_flight_id_to_unique_flights config (some p) df = .ok out)
    (hr : r ∈ (segment_dataframe_into_new_and_continued_flights p
        (add_unique_flight_identifier
          (filter_and_fill_origin_destination_pair (sortByPos df)))).1) :
    dropUfiJ r ∈ out := by
  by_cases hdf : df.isEmpty = true
  · have : df = [] := by
      cases df with
      | nil => rfl
      | cons a b => simp at hdf
    subst this
    exact absurd hr (List.not_mem_nil r)
  · by_cases hp : p.isEmpty = true
    · have : p = [] := by
        cases p with
        | nil => rfl
        | cons a b => simp at hp
      subst this
      rw [segment_nil_prev] at hr
      exact absurd hr (List.not_mem_nil r)
    · cases hmax : maxOpt (p.filterMap TailRec.flight_id) with
      | none =>
        unfold assign_flight_id_to_unique_flights at hok
        simp only [hdf, hp, hmax, if_false, Bool.false_eq_true, if_neg] at hok
        exact Except.noConfusion hok
      | some m =>
        unfold assign_flight_id_to_unique_flights at hok
        simp only [hdf, hp, hmax, if_false, Bool.false_eq_true, if_neg,
          Except.ok.injEq] at hok
        subst hok
        rw [mem_sortByPos]
        apply List.mem_append_left
        exact List.mem_map_of_mem dropUfiJ hr

/-- Instantiation of the continued-stream preservation: the record at
minute 920 of the continuation scenario (`c3tail`, `c3in`) reaches the
chunk output with its prior flight id 0. -/
theorem continued_rows_bypass_gap_splitter_witness :
    OutRec.mk "X" 920 (some "EGLL") (some "EGPH") (some 0) ∈ c3out :=
  continued_rows_bypass_gap_splitter defaultConfig c3tail c3in c3out
    ⟨"X", 920, some "EGLL", some "EGPH", some "X_EGLL_EGPH", some 0⟩
    (by decide) (by decide)

end AdsB
